import Mathlib

/-!
Verification of the filter and modifier expression engine of the elbisaur
CLI (src/listen_filter.ts and the listen modifier module).

The embedding models JavaScript runtime values ("Value"), JavaScript
numbers including the NaN and Infinity special values ("JSNum", finite
numbers as rationals), the "compare" function, the condition evaluator and
predicate returned by "getListenFilter", the construction-time validation
(filter expression grammar, date bounds, YAML list sources), and the
"getListenModifier" edit engine.

External platform builtins used by the source (the ECMAScript Number
conversion of strings, String.prototype.localeCompare, and the split of a
filter specification on the conjunction token) are modelled explicitly as
executable functions; each carries a doc comment naming the builtin it
models.
-/

namespace Elbisaur

/-- A JavaScript runtime value as it can appear as a record attribute:
absent (undefined), null, boolean, finite number, string, array, or any
other object (opaque).  Mirrors the value kinds the source code inspects
via typeof / Array.isArray. -/
inductive Value where
  | undefined
  | null
  | bool (b : Bool)
  | num (q : ℚ)
  | str (s : String)
  | list (xs : List Value)
  | obj

/-- Array.isArray test of the source. -/
def Value.isList : Value → Bool
  | .list _ => true
  | _ => false

/-- The scalar kinds of the value model: absent, null, boolean, number,
string (everything except sequences and opaque objects). -/
def Value.isScalar : Value → Bool
  | .list _ => false
  | .obj => false
  | _ => true

/-- JavaScript truthiness of a value: undefined, null, false, 0 and the
empty string are falsy; everything else (including arrays and objects) is
truthy.  Finite numbers are rationals, so the NaN case cannot arise here. -/
def truthy : Value → Bool
  | .undefined => false
  | .null => false
  | .bool b => b
  | .num q => decide (q ≠ 0)
  | .str s => !s.isEmpty
  | .list _ => true
  | .obj => true

/-- A JavaScript number: NaN, positive or negative Infinity, or a finite
value modelled as a rational. -/
inductive JSNum where
  | nan
  | inf
  | ninf
  | fin (q : ℚ)
deriving DecidableEq

/-- Negation of a JavaScript number. -/
def JSNum.neg : JSNum → JSNum
  | .nan => .nan
  | .inf => .ninf
  | .ninf => .inf
  | .fin q => .fin (-q)

/-- Subtraction of JavaScript numbers: NaN is absorbing, Infinity minus
Infinity of the same sign is NaN. -/
def JSNum.sub : JSNum → JSNum → JSNum
  | .nan, _ => .nan
  | _, .nan => .nan
  | .inf, .inf => .nan
  | .inf, _ => .inf
  | .ninf, .ninf => .nan
  | .ninf, _ => .ninf
  | .fin _, .inf => .ninf
  | .fin _, .ninf => .inf
  | .fin a, .fin b => .fin (a - b)

/-- The JavaScript comparison a less-or-equal b: false whenever either side
is NaN. -/
def JSNum.le : JSNum → JSNum → Bool
  | .nan, _ => false
  | _, .nan => false
  | .ninf, _ => true
  | .inf, .inf => true
  | .inf, _ => false
  | .fin _, .inf => true
  | .fin _, .ninf => false
  | .fin a, .fin b => decide (a ≤ b)

/-- The JavaScript comparison a less-than b: false whenever either side is
NaN. -/
def JSNum.lt : JSNum → JSNum → Bool
  | .nan, _ => false
  | _, .nan => false
  | .ninf, .ninf => false
  | .ninf, _ => true
  | .inf, _ => false
  | .fin _, .ninf => false
  | .fin _, .inf => true
  | .fin a, .fin b => decide (a < b)

/-- The JavaScript comparison a greater-or-equal b. -/
def JSNum.ge (a b : JSNum) : Bool := JSNum.le b a

/-- The JavaScript comparison a greater-than b. -/
def JSNum.gt (a b : JSNum) : Bool := JSNum.lt b a

/-- The JavaScript strict equality test of a number against the literal 0;
NaN and the infinities are not equal to 0. -/
def JSNum.isZero : JSNum → Bool
  | .fin q => decide (q = 0)
  | _ => false

/-- Whitespace as trimmed by the ECMAScript string-to-number conversion
(the common ASCII cases). -/
def isJsSpace (c : Char) : Bool :=
  c = ' ' || c = '\t' || c = '\n' || c = '\r'

/-- Value of a list of decimal digit characters. -/
def digitsVal (ds : List Char) : ℕ :=
  ds.foldl (fun n c => 10 * n + (c.toNat - 48)) 0

/-- Parses a nonempty all-decimal-digit suffix, consuming the whole input. -/
def parseDigitsAll (cs : List Char) : Option ℤ :=
  if !cs.isEmpty && cs.all Char.isDigit then some (digitsVal cs) else none

/-- Parses an optionally signed nonempty digit run, consuming the whole
input. -/
def parseSignedDigits : List Char → Option ℤ
  | '+' :: rest => parseDigitsAll rest
  | '-' :: rest => (parseDigitsAll rest).map (fun z => -z)
  | cs => parseDigitsAll cs

/-- Parses the exponent part of a decimal literal (empty, or e / E followed
by an optionally signed digit run), consuming the whole input. -/
def parseExpPart : List Char → Option ℤ
  | [] => some 0
  | 'e' :: rest => parseSignedDigits rest
  | 'E' :: rest => parseSignedDigits rest
  | _ => none

/-- Parses an unsigned decimal literal (integer part, optional fraction,
optional exponent), consuming the whole input. -/
def parseDecimal (cs : List Char) : Option ℚ :=
  let ip := cs.takeWhile Char.isDigit
  let rest := cs.dropWhile Char.isDigit
  match rest with
  | '.' :: rest2 =>
    let fp := rest2.takeWhile Char.isDigit
    let rest3 := rest2.dropWhile Char.isDigit
    if ip.isEmpty && fp.isEmpty then none
    else (parseExpPart rest3).map (fun e =>
      ((digitsVal ip : ℚ) + (digitsVal fp : ℚ) / (10 : ℚ) ^ fp.length) *
        (10 : ℚ) ^ e)
  | _ =>
    if ip.isEmpty then none
    else (parseExpPart rest).map (fun e => (digitsVal ip : ℚ) * (10 : ℚ) ^ e)

/-- Value of one digit character in the given radix, if valid. -/
def radixDigitVal (radix : ℕ) (c : Char) : Option ℕ :=
  let v :=
    if c.isDigit then some (c.toNat - 48)
    else if 'a' ≤ c && c ≤ 'z' then some (c.toNat - 87)
    else if 'A' ≤ c && c ≤ 'Z' then some (c.toNat - 55)
    else none
  match v with
  | some n => if n < radix then some n else none
  | none => none

/-- Parses a nonempty digit run in the given radix, consuming the whole
input. -/
def parseRadix (radix : ℕ) (cs : List Char) : Option ℕ :=
  if cs.isEmpty then none
  else
    cs.foldl
      (fun acc c =>
        match acc, radixDigitVal radix c with
        | some n, some d => some (radix * n + d)
        | _, _ => none)
      (some 0)

/-- Parses the magnitude of a string numeric literal: the Infinity keyword
or an unsigned decimal literal. -/
def jsNumberMag (cs : List Char) : Option JSNum :=
  if cs = ['I', 'n', 'f', 'i', 'n', 'i', 't', 'y'] then some .inf
  else (parseDecimal cs).map .fin

/-- Modelled builtin: the ECMAScript conversion of a string to a number, as
invoked by the source via Number(value).  The input is trimmed; an empty
remainder is 0; hex, octal and binary prefixed literals are unsigned;
otherwise an optionally signed decimal literal or Infinity; anything else
is NaN. -/
def jsNumber (s : String) : JSNum :=
  let cs := ((s.toList.dropWhile isJsSpace).reverse.dropWhile isJsSpace).reverse
  if cs.isEmpty then .fin 0
  else
    match cs with
    | '0' :: 'x' :: rest => ((parseRadix 16 rest).map (fun n => .fin n)).getD .nan
    | '0' :: 'X' :: rest => ((parseRadix 16 rest).map (fun n => .fin n)).getD .nan
    | '0' :: 'o' :: rest => ((parseRadix 8 rest).map (fun n => .fin n)).getD .nan
    | '0' :: 'O' :: rest => ((parseRadix 8 rest).map (fun n => .fin n)).getD .nan
    | '0' :: 'b' :: rest => ((parseRadix 2 rest).map (fun n => .fin n)).getD .nan
    | '0' :: 'B' :: rest => ((parseRadix 2 rest).map (fun n => .fin n)).getD .nan
    | '+' :: rest => (jsNumberMag rest).getD .nan
    | '-' :: rest => ((jsNumberMag rest).map JSNum.neg).getD .nan
    | other => (jsNumberMag other).getD .nan

/-- Modelled builtin: String.prototype.localeCompare on lists of
characters; code-point lexicographic sign. -/
def localeCompareList : List Char → List Char → ℚ
  | [], [] => 0
  | [], _ :: _ => -1
  | _ :: _, [] => 1
  | c :: cs, d :: ds =>
    if c < d then -1 else if d < c then 1 else localeCompareList cs ds

/-- Modelled builtin: String.prototype.localeCompare, as invoked by the
source via actualValue.localeCompare(value).  Returns a negative, zero or
positive number according to the ordering of the two strings. -/
def localeCompare (a b : String) : ℚ :=
  localeCompareList a.toList b.toList

/-- Rendering of a value inside a template literal, for error messages
(arrays join their elements with commas; the nested-array corner is
approximated since no theorem depends on message contents). -/
def jsDisplayAtom : Value → String
  | .undefined => "undefined"
  | .null => "null"
  | .bool b => if b then "true" else "false"
  | .num q => toString q
  | .str s => s
  | .list _ => ""
  | .obj => "[object Object]"

/-- Rendering of a value inside a template literal. -/
def jsDisplay : Value → String
  | .list xs => String.intercalate "," (xs.map jsDisplayAtom)
  | v => jsDisplayAtom v

/-- The compare function of src/listen_filter.ts: coerces a boolean actual
value to the number 0 or 1 and an undefined or null actual value to the
empty string, then subtracts the parsed literal from a numeric actual
value, compares a string actual value with localeCompare, and throws a
ValidationError for every other actual value kind. -/
def compare (actualValue : Value) (value : String) : Except String JSNum :=
  let a := match actualValue with
    | .bool b => Value.num (if b then 1 else 0)
    | .undefined => Value.str ""
    | .null => Value.str ""
    | v => v
  match a with
  | .num q => .ok (JSNum.sub (.fin q) (jsNumber value))
  | .str s => .ok (.fin (localeCompare s value))
  | other => .error ("Comparison is not allowed for " ++ jsDisplay other)

/-- A filter operator, one of the seven operator tokens of the filter
grammar in src/listen_filter.ts. -/
inductive Op where
  | eq
  | ne
  | le
  | lt
  | ge
  | gt
  | xor
deriving DecidableEq

/-- The operator token as written in a filter expression, used in warning
messages. -/
def Op.token : Op → String
  | .eq => "=="
  | .ne => "!="
  | .le => "<="
  | .lt => "<"
  | .ge => ">="
  | .gt => ">"
  | .xor => "^"

/-- The operand of a condition: a single literal string (from a filter
expression) or a list of literal strings (from a YAML list source), the
string or string-array union type of the source. -/
inductive Operand where
  | scalar (v : String)
  | set (vs : List String)
deriving DecidableEq

/-- One parsed atomic condition of a filter: key, operator, operand. -/
structure Condition where
  key : String
  op : Op
  value : Operand
deriving DecidableEq

/-- The console warning emitted when a condition targets an attribute with
multiple values. -/
def warnMultiValue (key : String) : String :=
  "Ignoring condition for \"" ++ key ++ "\" (has multiple values)"

/-- The console warning emitted when an operator other than equality or
inequality meets a list operand. -/
def warnSetOperator (key : String) (op : Op) : String :=
  "Ignoring condition for \"" ++ key ++ "\" (\"" ++ op.token ++
    "\" does not accept multiple values)"

/-- The value.some(...) step of the evaluator: does the actual value
compare equal to some literal of the set?  Short-circuits on the first
equal literal; a comparison error propagates. -/
def someEqZero (a : Value) : List String → Except String Bool
  | [] => .ok false
  | v :: rest =>
    match compare a v with
    | .error e => .error e
    | .ok r => if r.isZero then .ok true else someEqZero a rest

/-- The value.every(...) step of the evaluator: does the actual value
compare unequal to every literal of the set?  Short-circuits on the first
equal literal; a comparison error propagates. -/
def everyNeZero (a : Value) : List String → Except String Bool
  | [] => .ok true
  | v :: rest =>
    match compare a v with
    | .error e => .error e
    | .ok r => if r.isZero then .ok false else everyNeZero a rest

/-- Evaluation of one condition against the already-looked-up actual
attribute value, mirroring the body of the conditions.every callback in
src/listen_filter.ts.  Returns the boolean outcome together with the list
of warnings printed, or the error thrown by compare. -/
def evalCondition (c : Condition) (actualValue : Value) :
    Except String (Bool × List String) :=
  if actualValue.isList then
    .ok (true, [warnMultiValue c.key])
  else
    match c.value with
    | .set vs =>
      match c.op with
      | .eq => (someEqZero actualValue vs).map (fun b => (b, []))
      | .ne => (everyNeZero actualValue vs).map (fun b => (b, []))
      | _ => .ok (true, [warnSetOperator c.key c.op])
    | .scalar v =>
      match c.op with
      | .eq => (compare actualValue v).map (fun r => (r.isZero, []))
      | .ne => (compare actualValue v).map (fun r => (!r.isZero, []))
      | .xor =>
        .ok ((truthy actualValue && !truthy (.str v)) ||
          (!truthy actualValue && truthy (.str v)), [])
      | .le => (compare actualValue v).map (fun r => (r.le (.fin 0), []))
      | .lt => (compare actualValue v).map (fun r => (r.lt (.fin 0), []))
      | .ge => (compare actualValue v).map (fun r => (r.ge (.fin 0), []))
      | .gt => (compare actualValue v).map (fun r => (r.gt (.fin 0), []))

/-- The track metadata of a listen: the three primary string fields the
modifier recognizes, the remaining primary fields as an open map (the full
attribute catalogue of the external Track type), and the optional
additional_info namespace. -/
structure Track where
  artist_name : Value := .undefined
  track_name : Value := .undefined
  release_name : Value := .undefined
  otherFields : List (String × Value) := []
  additional_info : Option (List (String × Value)) := none

/-- A listen record: event timestamp and track metadata. -/
structure Listen where
  listened_at : ℚ
  track_metadata : Track

/-- Property lookup on an open string-keyed object; a missing key reads as
undefined. -/
def lookupAssoc (m : List (String × Value)) (key : String) : Value :=
  match m.find? (fun p => p.1 = key) with
  | some p => p.2
  | none => .undefined

/-- Property lookup on the track object (the track[key] read of the
source): the named primary fields, the additional_info object itself, or
one of the remaining primary fields. -/
def Track.get (t : Track) (key : String) : Value :=
  if key = "artist_name" then t.artist_name
  else if key = "track_name" then t.track_name
  else if key = "release_name" then t.release_name
  else if key = "additional_info" then
    match t.additional_info with
    | some _ => .obj
    | none => .undefined
  else lookupAssoc t.otherFields key

/-- The JavaScript nullish coalescing operator: falls through to the right
operand on undefined and on null. -/
def jsCoalesce (a b : Value) : Value :=
  match a with
  | .undefined => b
  | .null => b
  | v => v

/-- The actual attribute value for a condition key: the primary track
field, falling back to the additional_info namespace (track[key] ??
info[key] in the source, with info defaulting to the empty object). -/
def actualValueFor (t : Track) (key : String) : Value :=
  jsCoalesce (t.get key)
    (lookupAssoc (t.additional_info.getD []) key)

/-- The conditions.every loop of the predicate: evaluates conditions in
order, short-circuiting on the first false one, accumulating warnings,
propagating a thrown comparison error. -/
def evalConditions (t : Track) : List Condition → Except String (Bool × List String)
  | [] => .ok (true, [])
  | c :: rest =>
    match evalCondition c (actualValueFor t c.key) with
    | .error e => .error e
    | .ok (false, w) => .ok (false, w)
    | .ok (true, w) =>
      match evalConditions t rest with
      | .error e => .error e
      | .ok (b, w2) => .ok (b, w ++ w2)

/-- Word character test of the regular expression class used by the filter
and edit grammars (ASCII letters, digits and underscore). -/
def isWordChar (c : Char) : Bool :=
  c.isAlphanum || c = '_'

/-- Operator tokenization of the filter grammar: the alternation of the
source regular expression, tried in its written order, so that the
two-character tokens are preferred over their one-character prefixes. -/
def matchOperator : List Char → Option (Op × List Char)
  | '=' :: '=' :: rest => some (.eq, rest)
  | '!' :: '=' :: rest => some (.ne, rest)
  | '<' :: '=' :: rest => some (.le, rest)
  | '<' :: rest => some (.lt, rest)
  | '>' :: '=' :: rest => some (.ge, rest)
  | '>' :: rest => some (.gt, rest)
  | '^' :: rest => some (.xor, rest)
  | _ => none

/-- Parsing of one filter clause against the anchored grammar key,
operator, rest-of-clause: a nonempty maximal word-character run, then an
operator token, then the operand.  The operator tokens all start with a
non-word character, so the maximal key run is the only candidate split
(the regular expression engine has nothing to backtrack into). -/
def parseConditionCore (cs : List Char) : Option (String × Op × String) :=
  let key := cs.takeWhile isWordChar
  if key.isEmpty then none
  else
    match matchOperator (cs.dropWhile isWordChar) with
    | some (op, rest) => some (key.asString, op, rest.asString)
    | none => none

/-- Parsing of one filter clause into a condition. -/
def parseCondition (expression : String) : Option Condition :=
  match parseConditionCore expression.toList with
  | some (k, op, v) => some ⟨k, op, .scalar v⟩
  | none => none

/-- The map over the clauses of a filter specification: parses each clause,
throwing a ValidationError on the first invalid one. -/
def parseClauses : List String → Except String (List Condition)
  | [] => .ok []
  | e :: rest =>
    match parseCondition e with
    | none => .error ("Invalid filter expression \"" ++ e ++ "\"")
    | some c => (parseClauses rest).map (fun cs => c :: cs)

/-- The condition list from the optional filter specification: an absent
specification contributes no conditions, a present one is split on the
conjunction token and each clause parsed. -/
def parseConditions (filterSpecification : Option String) :
    Except String (List Condition) :=
  match filterSpecification with
  | none => .ok []
  | some spec => parseClauses (spec.splitOn "&&")

/-- A value of the deserialized YAML mapping: a list of literal strings, or
any non-list value (which the builder rejects). -/
inductive YamlValue where
  | list (vs : List String)
  | other (v : Value)

/-- Array.isArray test on a deserialized YAML value. -/
def YamlValue.isList : YamlValue → Bool
  | .list _ => true
  | .other _ => false

/-- An external list source: its path (the source identifier) and the
deserialized top-level mapping from attribute key to YAML value. -/
structure ListSource where
  path : String
  entries : List (String × YamlValue)

/-- The options of getListenFilter: the optional time bounds and the
optional exclude and include list sources. -/
structure FilterOptions where
  after : Option String := none
  before : Option String := none
  excludeList : Option ListSource := none
  includeList : Option ListSource := none

/-- The loadConditionsFromYaml helper of the source: turns each mapping
entry whose value is a list into a condition with the given operator, and
throws a ValidationError naming the offending key and the source path at
the first entry whose value is not a list. -/
def loadConditionsFromYaml (path : String) (op : Op) :
    List (String × YamlValue) → Except String (List Condition)
  | [] => .ok []
  | (key, v) :: rest =>
    match v with
    | .list vs =>
      (loadConditionsFromYaml path op rest).map
        (fun cs => Condition.mk key op (.set vs) :: cs)
    | .other _ =>
      .error ("\"" ++ key ++ "\" from \"" ++ path ++ "\" has to be a list")

/-- Loading of an optional list source: skipped when absent or when the
path is the empty string (a falsy option in the source). -/
def loadListOpt (src : Option ListSource) (op : Op) :
    Except String (List Condition) :=
  match src with
  | none => .ok []
  | some s =>
    if s.path = "" then .ok []
    else loadConditionsFromYaml s.path op s.entries

/-- The lower time bound: 0 when no after option is given (or when it is
the falsy empty string), otherwise the parsed timestamp. -/
def computeMinTs (ts : String → JSNum) (after : Option String) : JSNum :=
  match after with
  | none => .fin 0
  | some s => if s = "" then .fin 0 else ts s

/-- The upper time bound: Infinity when no before option is given (or when
it is the falsy empty string), otherwise the parsed timestamp. -/
def computeMaxTs (ts : String → JSNum) (before : Option String) : JSNum :=
  match before with
  | none => .inf
  | some s => if s = "" then .inf else ts s

/-- Rendering of an optional string inside a template literal. -/
def optionStr : Option String → String
  | none => "undefined"
  | some s => s

/-- The data captured by the predicate closure returned by
getListenFilter: the two time bounds and the constructed condition list. -/
structure FilterCtx where
  minTs : JSNum
  maxTs : JSNum
  conditions : List Condition
deriving DecidableEq

/-- Construction phase of getListenFilter in src/listen_filter.ts,
parameterized over the external timestamp parser: parses the filter
specification clauses, computes and validates the two time bounds, then
appends the exclude-list conditions (operator not-equal) and the
include-list conditions (operator equal).  Every failure is a thrown
ValidationError, before any record is evaluated. -/
def getListenFilter (ts : String → JSNum) (filterSpecification : Option String)
    (options : FilterOptions) : Except String FilterCtx :=
  match parseConditions filterSpecification with
  | .error e => .error e
  | .ok conds =>
    let minTs := computeMinTs ts options.after
    if minTs = .nan then
      .error ("Invalid date \"" ++ optionStr options.after ++ "\"")
    else
      let maxTs := computeMaxTs ts options.before
      if maxTs = .nan then
        .error ("Invalid date \"" ++ optionStr options.before ++ "\"")
      else
        match loadListOpt options.excludeList .ne with
        | .error e => .error e
        | .ok exConds =>
          match loadListOpt options.includeList .eq with
          | .error e => .error e
          | .ok inConds =>
            .ok ⟨minTs, maxTs, conds ++ exConds ++ inConds⟩

/-- The predicate closure returned by getListenFilter: a listen whose
timestamp is not strictly between the bounds is rejected outright (no
warnings, no condition evaluated); otherwise the conditions run in order. -/
def runFilter (ctx : FilterCtx) (l : Listen) : Except String (Bool × List String) :=
  if (JSNum.fin l.listened_at).le ctx.minTs ||
      (JSNum.fin l.listened_at).ge ctx.maxTs then
    .ok (false, [])
  else
    evalConditions l.track_metadata ctx.conditions

/-- One parsed edit expression: key and assigned value. -/
structure Edit where
  key : String
  value : String
deriving DecidableEq

/-- Parsing of one edit expression against the anchored grammar key,
equals sign, rest-of-expression: a nonempty maximal word-character run,
then the assignment operator, then the value (everything after the first
equals sign, not re-parsed). -/
def parseEdit (expression : String) : Option Edit :=
  let cs := expression.toList
  let key := cs.takeWhile isWordChar
  if key.isEmpty then none
  else
    match cs.dropWhile isWordChar with
    | '=' :: rest => some ⟨key.asString, rest.asString⟩
    | _ => none

/-- Property write on an open string-keyed object: replaces the value of
an existing key in place, otherwise appends the new key. -/
def setAssoc (m : List (String × Value)) (key : String) (v : Value) :
    List (String × Value) :=
  if m.any (fun p => p.1 = key) then
    m.map (fun p => if p.1 = key then (key, v) else p)
  else m ++ [(key, v)]

/-- One edit applied to the track metadata, mirroring the loop body of the
modifier closure: the three recognized keys write the corresponding
primary field, every other key writes its entry in the additional_info
namespace, creating that namespace if absent. -/
def applyEdit (t : Track) (e : Edit) : Track :=
  if e.key = "track_name" then { t with track_name := .str e.value }
  else if e.key = "artist_name" then { t with artist_name := .str e.value }
  else if e.key = "release_name" then { t with release_name := .str e.value }
  else
    let info := setAssoc (t.additional_info.getD []) e.key (.str e.value)
    { t with additional_info := some info }

/-- The modifier closure returned by getListenModifier: a no-op when no
edit expressions were given, otherwise the edits applied in order to the
track metadata of the listen. -/
def applyEdits (edits : Option (List Edit)) (l : Listen) : Listen :=
  match edits with
  | none => l
  | some es => { l with track_metadata := es.foldl applyEdit l.track_metadata }

/-- The map over the edit expressions of getListenModifier. -/
def parseEdits : List String → Except String (List Edit)
  | [] => .ok []
  | e :: rest =>
    match parseEdit e with
    | none => .error ("Invalid edit expression \"" ++ e ++ "\"")
    | some ed => (parseEdits rest).map (fun es => ed :: es)

/-- Construction phase of getListenModifier: parses each edit expression,
throwing a ValidationError on the first invalid one; an absent expression
list yields the no-op modifier. -/
def getListenModifier (expressions : Option (List String)) :
    Except String (Option (List Edit)) :=
  match expressions with
  | none => .ok none
  | some exprs => (parseEdits exprs).map some

/-- Does the actual value compare equal (result 0) to the literal?  False
when the comparison throws. -/
def comparesEqual (a : Value) (v : String) : Bool :=
  match compare a v with
  | .ok r => r.isZero
  | .error _ => false

/- Helper lemmas. -/

/-- The comparison never throws on a scalar actual value, and its zero
test agrees with comparesEqual. -/
theorem compare_isScalar_ok (a : Value) (v : String) (h : a.isScalar = true) :
    ∃ r, compare a v = .ok r ∧ r.isZero = comparesEqual a v := by
  cases a <;> simp [Value.isScalar] at h <;> exact ⟨_, rfl, rfl⟩

/-- The some-literal-compares-equal loop computes the boolean any over the
literal set, for a scalar actual value. -/
theorem someEqZero_spec (a : Value) (h : a.isScalar = true) :
    ∀ vs : List String, someEqZero a vs = .ok (vs.any (comparesEqual a)) := by
  intro vs
  induction vs with
  | nil => rfl
  | cons v rest ih =>
    obtain ⟨r, hr, hz⟩ := compare_isScalar_ok a v h
    simp only [someEqZero, hr, List.any_cons]
    rw [← hz]
    cases hzz : r.isZero <;> simp [hzz, ih]

/-- The every-literal-compares-unequal loop computes the boolean all of
the negations over the literal set, for a scalar actual value. -/
theorem everyNeZero_spec (a : Value) (h : a.isScalar = true) :
    ∀ vs : List String, everyNeZero a vs = .ok (vs.all (fun v => !comparesEqual a v)) := by
  intro vs
  induction vs with
  | nil => rfl
  | cons v rest ih =>
    obtain ⟨r, hr, hz⟩ := compare_isScalar_ok a v h
    simp only [everyNeZero, hr, List.all_cons]
    rw [← hz]
    cases hzz : r.isZero <;> simp [hzz, ih]

/-- A scalar value is not an array. -/
theorem isList_false_of_isScalar (a : Value) (h : a.isScalar = true) :
    a.isList = false := by
  cases a <;> simp_all [Value.isScalar, Value.isList]

/-- Claim C1: compare coerces a boolean actual value to the number 0 or 1
and an absent or null actual value to the empty string, then returns the
numeric difference against the parsed literal for a numeric actual value
and the locale comparison for a string actual value, and throws for every
other actual kind; in particular compare of true against the literal 1 and
of false against the literal 0 both yield 0. -/
theorem claim_C1 :
    (∀ (b : Bool) (v : String),
      compare (.bool b) v = compare (.num (if b then 1 else 0)) v) ∧
    (∀ v : String, compare .undefined v = compare (.str "") v) ∧
    (∀ v : String, compare .null v = compare (.str "") v) ∧
    (∀ (q : ℚ) (v : String),
      compare (.num q) v = .ok (JSNum.sub (.fin q) (jsNumber v))) ∧
    (∀ (s v : String), compare (.str s) v = .ok (.fin (localeCompare s v))) ∧
    (∀ (xs : List Value) (v : String), ∃ e, compare (.list xs) v = .error e) ∧
    (∀ v : String, ∃ e, compare .obj v = .error e) ∧
    compare (.bool true) "1" = .ok (.fin 0) ∧
    compare (.bool false) "0" = .ok (.fin 0) := by
  refine ⟨fun b v => by cases b <;> rfl, fun v => rfl, fun v => rfl,
    fun q v => rfl, fun s v => rfl, fun xs v => ⟨_, rfl⟩, fun v => ⟨_, rfl⟩,
    ?_, ?_⟩ <;>
    simp [compare, jsNumber, isJsSpace, jsNumberMag, parseDecimal,
      parseExpPart, digitsVal, JSNum.sub]

/-- Claim C2: with a set operand, an equality condition on a scalar actual
value is true exactly when the value compares equal to some literal of the
set, and an inequality condition exactly when it compares unequal to every
literal; with the concrete instances on the set of the literals a and b. -/
theorem claim_C2 :
    (∀ (a : Value) (k : String) (vs : List String), a.isScalar = true →
      evalCondition ⟨k, .eq, .set vs⟩ a = .ok (vs.any (comparesEqual a), []) ∧
      evalCondition ⟨k, .ne, .set vs⟩ a =
        .ok (vs.all (fun v => !comparesEqual a v), [])) ∧
    evalCondition ⟨"artist_name", .eq, .set ["a", "b"]⟩ (.str "b") = .ok (true, []) ∧
    evalCondition ⟨"artist_name", .ne, .set ["a", "b"]⟩ (.str "b") = .ok (false, []) ∧
    evalCondition ⟨"artist_name", .ne, .set ["a", "b"]⟩ (.str "c") = .ok (true, []) := by
  refine ⟨fun a k vs h => ?_, rfl, rfl, rfl⟩
  have hl := isList_false_of_isScalar a h
  constructor
  · simp [evalCondition, hl, someEqZero_spec a h vs, Except.map]
  · simp [evalCondition, hl, everyNeZero_spec a h vs, Except.map]

/-- Witness for claim C2 at the string b against the set of a and b. -/
theorem claim_C2_witness :
    evalCondition ⟨"artist_name", .eq, .set ["a", "b"]⟩ (.str "b") =
      .ok ((["a", "b"].any (comparesEqual (.str "b"))), []) :=
  (claim_C2.1 (.str "b") "artist_name" ["a", "b"] rfl).1

/-- Claim C3: a condition that is not evaluable (the actual attribute
value is an array, or the operand is a set combined with an operator other
than equality or inequality) evaluates to true with a warning, never
rejecting the record. -/
theorem claim_C3 (c : Condition) (a : Value)
    (h : a.isList = true ∨
      ((∃ vs, c.value = .set vs) ∧ c.op ≠ .eq ∧ c.op ≠ .ne)) :
    ∃ w, evalCondition c a = .ok (true, [w]) := by
  by_cases hl : a.isList = true
  · exact ⟨warnMultiValue c.key, by simp [evalCondition, hl]⟩
  · rcases h with h | ⟨⟨vs, hv⟩, hne, hnn⟩
    · exact absurd h hl
    · refine ⟨warnSetOperator c.key c.op, ?_⟩
      obtain ⟨key, op, value⟩ := c
      simp only at hv hne hnn
      subst hv
      cases op <;> simp_all [evalCondition]

/-- Witness for claim C3 at a greater-than condition with a set operand. -/
theorem claim_C3_witness :
    ∃ w, evalCondition ⟨"genre", .gt, .set ["rock"]⟩ (.str "pop") = .ok (true, [w]) :=
  claim_C3 ⟨"genre", .gt, .set ["rock"]⟩ (.str "pop")
    (Or.inr ⟨⟨["rock"], rfl⟩, by decide, by decide⟩)

/-- A successful filter construction stores the computed lower and upper
time bounds in the returned predicate context. -/
theorem getListenFilter_ok_bounds (ts : String → JSNum) (fs : Option String)
    (opts : FilterOptions) (ctx : FilterCtx)
    (h : getListenFilter ts fs opts = .ok ctx) :
    ctx.minTs = computeMinTs ts opts.after ∧
      ctx.maxTs = computeMaxTs ts opts.before := by
  unfold getListenFilter at h
  cases hp : parseConditions fs with
  | error e => rw [hp] at h; exact absurd h (by simp)
  | ok conds =>
    rw [hp] at h
    simp only at h
    by_cases h1 : computeMinTs ts opts.after = JSNum.nan
    · simp [h1] at h
    · rw [if_neg h1] at h
      by_cases h2 : computeMaxTs ts opts.before = JSNum.nan
      · simp [h2] at h
      · rw [if_neg h2] at h
        cases hx : loadListOpt opts.excludeList Op.ne with
        | error e => rw [hx] at h; exact absurd h (by simp)
        | ok exConds =>
          rw [hx] at h
          cases hi : loadListOpt opts.includeList Op.eq with
          | error e => rw [hi] at h; exact absurd h (by simp)
          | ok inConds =>
            rw [hi] at h
            cases h
            exact ⟨rfl, rfl⟩

/-- Claim C4: with both time bounds given and parsing to finite
timestamps, the predicate rejects every record whose event timestamp does
not lie strictly inside the open interval between the bounds; in
particular a record timestamped exactly at either bound is rejected. -/
theorem claim_C4 (ts : String → JSNum) (fs : Option String)
    (opts : FilterOptions) (ctx : FilterCtx) (sa sb : String) (a b : ℚ)
    (l : Listen)
    (hA : opts.after = some sa) (hsa : sa ≠ "") (hta : ts sa = .fin a)
    (hB : opts.before = some sb) (hsb : sb ≠ "") (htb : ts sb = .fin b)
    (hok : getListenFilter ts fs opts = .ok ctx)
    (hout : ¬(a < l.listened_at ∧ l.listened_at < b)) :
    runFilter ctx l = .ok (false, []) := by
  obtain ⟨hmin, hmax⟩ := getListenFilter_ok_bounds ts fs opts ctx hok
  rw [hA] at hmin
  rw [hB] at hmax
  simp only [computeMinTs, computeMaxTs, if_neg hsa, if_neg hsb, hta, htb]
    at hmin hmax
  unfold runFilter
  rw [hmin, hmax]
  rcases le_or_lt l.listened_at a with hle | hgt
  · simp [JSNum.le, hle]
  · have hbe : b ≤ l.listened_at := by
      by_contra hc
      exact hout ⟨hgt, lt_of_not_le hc⟩
    simp [JSNum.le, JSNum.ge, hbe]

/-- Witness for claim C4: bounds parsing to 10 and 20, a record
timestamped exactly at the lower bound 10 is rejected. -/
theorem claim_C4_witness :
    getListenFilter (fun s => if s = "A" then JSNum.fin 10 else JSNum.fin 20)
        none ⟨some "A", some "B", none, none⟩ = .ok ⟨.fin 10, .fin 20, []⟩ ∧
    runFilter ⟨.fin 10, .fin 20, []⟩ ⟨10, {}⟩ = .ok (false, []) :=
  ⟨rfl,
    claim_C4 (fun s => if s = "A" then JSNum.fin 10 else JSNum.fin 20) none
      ⟨some "A", some "B", none, none⟩ ⟨.fin 10, .fin 20, []⟩ "A" "B" 10 20
      ⟨10, {}⟩ rfl (by decide) rfl rfl (by decide) rfl rfl (by decide)⟩

/-- Claim C5: the modifier built from the single edit expression assigning
the artist name parses to the expected edit, applying that edit changes
only the primary artist field of the record, and in general one edit
writes exactly the one field its key routes to: the three recognized keys
write the corresponding primary field, every other key writes only its
entry in the additional metadata namespace, creating it if absent. -/
theorem claim_C5 :
    getListenModifier (some ["artist_name=New Artist"]) =
      .ok (some [⟨"artist_name", "New Artist"⟩]) ∧
    (∀ l : Listen, applyEdits (some [⟨"artist_name", "New Artist"⟩]) l =
      { l with track_metadata :=
          { l.track_metadata with artist_name := .str "New Artist" } }) ∧
    (∀ (e : Edit) (t : Track),
      (e.key = "track_name" → applyEdit t e = { t with track_name := .str e.value }) ∧
      (e.key = "artist_name" → applyEdit t e = { t with artist_name := .str e.value }) ∧
      (e.key = "release_name" → applyEdit t e = { t with release_name := .str e.value }) ∧
      (e.key ≠ "track_name" → e.key ≠ "artist_name" → e.key ≠ "release_name" →
        applyEdit t e =
          { t with
            additional_info := some (setAssoc (t.additional_info.getD []) e.key (.str e.value)) })) := by
  refine ⟨rfl, fun l => rfl, fun e t => ⟨fun h => ?_, fun h => ?_, fun h => ?_,
    fun h1 h2 h3 => ?_⟩⟩
  · simp [applyEdit, h]
  · simp [applyEdit, h]
  · simp [applyEdit, h]
  · simp [applyEdit, h1, h2, h3]

/-- Witness for claim C5: an unrecognized key routes to the additional
metadata namespace, creating it on a track that had none. -/
theorem claim_C5_witness :
    applyEdit {} ⟨"genre", "Rock"⟩ =
      { additional_info := some [("genre", Value.str "Rock")] } :=
  (claim_C5.2.2 ⟨"genre", "Rock"⟩ {}).2.2.2 (by decide) (by decide) (by decide)

/-- A list-source mapping whose first non-list entry exists makes the YAML
condition loader throw the error naming that key and the source path. -/
theorem loadConditionsFromYaml_first_bad (path : String) (op : Op)
    (entries : List (String × YamlValue)) (key : String) (yv : YamlValue)
    (hfind : entries.find? (fun p => !p.2.isList) = some (key, yv)) :
    loadConditionsFromYaml path op entries =
      .error ("\"" ++ key ++ "\" from \"" ++ path ++ "\" has to be a list") := by
  induction entries with
  | nil => simp at hfind
  | cons e rest ih =>
    obtain ⟨k, v⟩ := e
    cases v with
    | list vs =>
      rw [List.find?_cons_of_neg _ (by simp [YamlValue.isList])] at hfind
      simp [loadConditionsFromYaml, ih hfind, Except.map]
    | other w =>
      rw [List.find?_cons_of_pos _ (by simp [YamlValue.isList])] at hfind
      cases hfind
      rfl

/-- Claim C6: a list source containing a key whose value is not a list
aborts predicate construction with an error naming both the offending key
and the source identifier, before any record is evaluated. -/
theorem claim_C6 (ts : String → JSNum) (src : ListSource) (key : String)
    (yv : YamlValue)
    (hfind : src.entries.find? (fun p => !p.2.isList) = some (key, yv))
    (hpath : src.path ≠ "") :
    getListenFilter ts none ⟨none, none, some src, none⟩ =
      .error ("\"" ++ key ++ "\" from \"" ++ src.path ++ "\" has to be a list") := by
  have hload := loadConditionsFromYaml_first_bad src.path Op.ne src.entries key yv hfind
  simp [getListenFilter, parseConditions, computeMinTs, computeMaxTs,
    loadListOpt, hpath, hload]

/-- Witness for claim C6: the entry mapping the artist name key to a plain
string aborts construction with the error naming the key and the file. -/
theorem claim_C6_witness :
    getListenFilter (fun _ => JSNum.nan) none
        ⟨none, none, some ⟨"exclude.yml", [("artist_name", .other (.str "Foo"))]⟩, none⟩ =
      .error ("\"artist_name\" from \"exclude.yml\" has to be a list") :=
  claim_C6 (fun _ => JSNum.nan) ⟨"exclude.yml", [("artist_name", .other (.str "Foo"))]⟩
    "artist_name" (.other (.str "Foo")) rfl (by decide)

/-- Splitting the character list at the first character failing the
predicate, when the prefix satisfies it throughout. -/
theorem takeWhile_dropWhile_append (p : Char → Bool) (l1 l2 : List Char)
    (c : Char) (h1 : ∀ x ∈ l1, p x = true) (hc : p c = false) :
    (l1 ++ c :: l2).takeWhile p = l1 ∧ (l1 ++ c :: l2).dropWhile p = c :: l2 := by
  induction l1 with
  | nil => simp [List.takeWhile, List.dropWhile, hc]
  | cons x xs ih =>
    have hx : p x = true := h1 x (by simp)
    have hrest := ih (fun y hy => h1 y (by simp [hy]))
    simp [List.takeWhile_cons, List.dropWhile_cons, hx, hrest.1, hrest.2]

/-- Claim C7: the operator of a filter clause is tokenized greedily, the
two-character tokens winning over their one-character prefixes: after any
word-character key, a clause continuing with less-equals parses to the LE
operator and one continuing with greater-equals to the GE operator, never
to LT or GT with a stray equals sign; in particular the duration clause
parses with key duration_ms, operator GE and operand 30000. -/
theorem claim_C7 :
    parseCondition "duration_ms>=30000" =
      some ⟨"duration_ms", .ge, .scalar "30000"⟩ ∧
    (∀ (key rest : List Char), key ≠ [] → (∀ c ∈ key, isWordChar c = true) →
      parseConditionCore (key ++ '<' :: '=' :: rest) =
        some (key.asString, .le, rest.asString) ∧
      parseConditionCore (key ++ '>' :: '=' :: rest) =
        some (key.asString, .ge, rest.asString)) := by
  refine ⟨rfl, fun key rest hne hall => ⟨?_, ?_⟩⟩
  · obtain ⟨ht, hd⟩ := takeWhile_dropWhile_append isWordChar key ('=' :: rest)
      '<' hall (by decide)
    simp [parseConditionCore, ht, hd, hne, matchOperator]
  · obtain ⟨ht, hd⟩ := takeWhile_dropWhile_append isWordChar key ('=' :: rest)
      '>' hall (by decide)
    simp [parseConditionCore, ht, hd, hne, matchOperator]

/-- Witness for claim C7 at the one-character key d followed by the
less-equals token and the operand 3. -/
theorem claim_C7_witness :
    parseConditionCore (['d'] ++ '<' :: '=' :: ['3']) =
      some ("d".toList.asString, .le, "3".toList.asString) :=
  (claim_C7.2 ['d'] ['3'] (by decide) (by decide)).1

/-- Claim C8: an XOR condition on a scalar actual value is the boolean
exclusive-or of the truthiness of the actual value and the truthiness of
the literal string; in particular a falsy 0 against the empty literal is
false and a truthy 1 against the empty literal is true. -/
theorem claim_C8 :
    (∀ (a : Value) (v k : String), a.isScalar = true →
      evalCondition ⟨k, .xor, .scalar v⟩ a =
        .ok (Bool.xor (truthy a) (truthy (.str v)), [])) ∧
    evalCondition ⟨"x", .xor, .scalar ""⟩ (.num 0) = .ok (false, []) ∧
    evalCondition ⟨"x", .xor, .scalar ""⟩ (.num 1) = .ok (true, []) := by
  refine ⟨fun a v k h => ?_, rfl, rfl⟩
  have hl := isList_false_of_isScalar a h
  have hb : ∀ x y : Bool, ((x && !y) || (!x && y)) = Bool.xor x y := by decide
  simp [evalCondition, hl, hb]

/-- Witness for claim C8 at the falsy boolean against a nonempty literal. -/
theorem claim_C8_witness :
    evalCondition ⟨"skipped", .xor, .scalar "1"⟩ (.bool false) = .ok (true, []) :=
  claim_C8.1 (.bool false) "1" "skipped" rfl

/-- Claim C9: for a numeric actual value the comparison result is the
actual value minus the parsed literal, and a literal that fails to parse
as a number makes the result the NaN sentinel, never a silent zero: the
equality condition against such a literal is false, not true. -/
theorem claim_C9 :
    (∀ (q : ℚ) (v : String),
      compare (.num q) v = .ok (JSNum.sub (.fin q) (jsNumber v))) ∧
    (∀ (q : ℚ) (v k : String), jsNumber v = .nan →
      compare (.num q) v = .ok .nan ∧
      evalCondition ⟨k, .eq, .scalar v⟩ (.num q) = .ok (false, [])) := by
  refine ⟨fun q v => rfl, fun q v k h => ⟨?_, ?_⟩⟩
  · show Except.ok (JSNum.sub (.fin q) (jsNumber v)) = .ok .nan
    rw [h]
    simp [JSNum.sub]
  · simp [evalCondition, Value.isList, compare, h, Except.map, JSNum.sub,
      JSNum.isZero]

/-- Witness for claim C9 at the literal abc, which does not parse as a
number. -/
theorem claim_C9_witness :
    compare (.num 0) "abc" = .ok .nan ∧
    evalCondition ⟨"x", .eq, .scalar "abc"⟩ (.num 0) = .ok (false, []) :=
  claim_C9.2 0 "abc" "x" rfl

/-- Claim C10: when no after bound is supplied the lower bound defaults to
0 and the time check rejects timestamps less than or equal to it, so every
record with a nonpositive event timestamp is rejected regardless of the
conditions. -/
theorem claim_C10 (ts : String → JSNum) (fs : Option String)
    (opts : FilterOptions) (ctx : FilterCtx) (l : Listen)
    (hA : opts.after = none)
    (hok : getListenFilter ts fs opts = .ok ctx)
    (ht : l.listened_at ≤ 0) :
    runFilter ctx l = .ok (false, []) := by
  obtain ⟨hmin, _⟩ := getListenFilter_ok_bounds ts fs opts ctx hok
  rw [hA] at hmin
  simp only [computeMinTs] at hmin
  unfold runFilter
  rw [hmin]
  simp [JSNum.le, ht]

/-- Witness for claim C10: with no bounds at all, the record timestamped
exactly at the epoch value 0 is rejected. -/
theorem claim_C10_witness :
    getListenFilter (fun _ => JSNum.nan) none {} = .ok ⟨.fin 0, .inf, []⟩ ∧
    runFilter ⟨.fin 0, .inf, []⟩ ⟨0, {}⟩ = .ok (false, []) :=
  ⟨rfl, claim_C10 (fun _ => JSNum.nan) none {} ⟨.fin 0, .inf, []⟩ ⟨0, {}⟩ rfl rfl
    (by decide)⟩

end Elbisaur
